import Mathlib

/-!
Shallow embedding of `rsl_rl/utils/wandb_utils.py` (class `WandbSummaryWriter`).

The writer is modelled operationally: every method is a pure function that
returns the sequence of calls it attempts (local summary-writer calls and
remote wandb-client calls), together with its outcome.  The remote client is
an explicit parameter `remote : Event V → Option PyErr`: `none` means the
call succeeds, `some e` means the client raises the exception `e`.  Scalar
values (Python floats) are never inspected by the code, so they are kept as
an abstract type parameter `V`.  The filesystem seen by `os.path.exists` and
`os.walk` is an explicit parameter of type `FS`.
-/

namespace WandbUtils

/-- Python exceptions that the embedded code can raise or observe. -/
inductive PyErr where
  | keyError : String → PyErr
  | attributeError : String → PyErr
  | typeError : String → PyErr
  | remoteError : String → PyErr
deriving DecidableEq, Repr

/-- Nested configuration values (Python dict / list / scalar payloads
passed to `wandb.config.update`). -/
inductive CVal where
  | str : String → CVal
  | num : Int → CVal
  | dict : List (String × CVal) → CVal

/-- One attempted effect: a call into the local base summary writer
(`local*`) or into the remote wandb client (`remote*`). -/
inductive Event (V : Type) where
  | localInit (log_dir : String) (flush_secs : Nat)
  | localAddScalar (tag : String) (value : V) (global_step : Option Int)
      (walltime : Option V) (new_style : Bool)
  | remoteInit (project : String) (entity : Option String) (name : String)
  | remoteConfigUpdate (kv : List (String × CVal))
  | remoteLog (payload : List (String × V)) (step : Option Int)
  | remoteSave (path : String) (base_path : String)
  | remoteFinish
  | remoteLogVideo (key : String) (video_path : String) (fps : Nat)
      (format : String) (step : Int)

/-- The instance state of the writer: `log_dir` passed to the base class and
the `self.video_files` list (the video registry). -/
structure WandbSummaryWriter where
  log_dir : String
  video_files : List String

/-- The filesystem as observed through `os.path.exists` and `os.walk`:
`walk d` is the list of `(root, dirs, files)` triples yielded by
`os.walk(d)`. -/
structure FS where
  path_exists : String → Bool
  walk : String → List (String × List String × List String)

/-- The `env_cfg` argument of `store_config`: `to_dict` models evaluating
`env_cfg.to_dict()` (an `.error` covers both a missing attribute, which
raises `AttributeError`, and a raising method), `asdict` models
`dataclasses.asdict(env_cfg)` (an `.error` models e.g. the `TypeError`
raised on a non-dataclass argument). -/
structure EnvCfg where
  to_dict : Except PyErr CVal
  asdict : Except PyErr CVal

/-- Last component of `os.path.split(p)`, i.e. everything after the last
slash. -/
def runNameOf (p : String) : String :=
  String.mk ((p.toList.reverse.takeWhile (fun c => c ≠ '/')).reverse)

/-- `os.path.dirname p` (POSIX): the part before the last slash, with
trailing slashes stripped unless the result is all slashes. -/
def dirname (p : String) : String :=
  let cs := p.toList
  let base := (cs.reverse.takeWhile (fun c => c ≠ '/')).reverse
  let head := cs.take (cs.length - base.length)
  if head.all (fun c => c = '/') then String.mk head
  else String.mk ((head.reverse.dropWhile (fun c => c = '/')).reverse)

/-- `os.path.join a b` (POSIX, two arguments). -/
def joinPath (a b : String) : String :=
  if b.startsWith "/" then b
  else if a = "" then b
  else if a.endsWith "/" then a ++ b
  else a ++ "/" ++ b

/-- Python `str.endswith(suffix)`, computed on the character lists. -/
def pyEndsWith (s suffix : String) : Bool :=
  suffix.toList.isSuffixOf s.toList

/-- The message of the `KeyError` raised when `wandb_project` is missing. -/
def projectErrMsg : String :=
  "Please specify wandb_project in the runner config, e.g. legged_gym."

/-- `WandbSummaryWriter.__init__(log_dir, flush_secs, cfg)`: calls the base
constructor, derives the run name, requires `cfg["wandb_project"]` (raising
`KeyError` otherwise), defaults `entity` to `None`, then calls `wandb.init`
and pushes `log_dir` into `wandb.config`, and sets `video_files = []`.
Returns the attempted calls and either the constructed writer or the raised
exception. -/
def construct (V : Type) (remote : Event V → Option PyErr) (log_dir : String)
    (flush_secs : Nat) (cfg : List (String × String)) :
    List (Event V) × Except PyErr WandbSummaryWriter :=
  let e0 : Event V := .localInit log_dir flush_secs
  let run_name := runNameOf log_dir
  match List.lookup "wandb_project" cfg with
  | none => ([e0], .error (PyErr.keyError projectErrMsg))
  | some project =>
    let entity := List.lookup "wandb_entity" cfg
    let e1 : Event V := .remoteInit project entity run_name
    match remote e1 with
    | some err => ([e0, e1], .error err)
    | none =>
      let e2 : Event V := .remoteConfigUpdate [("log_dir", CVal.str log_dir)]
      match remote e2 with
      | some err => ([e0, e1, e2], .error err)
      | none => ([e0, e1, e2], .ok { log_dir := log_dir, video_files := [] })

/-- The `except Exception` arm of `store_config`:
`wandb.config.update({"env_cfg": asdict(env_cfg)})`. -/
def envFallbackArm (V : Type) (remote : Event V → Option PyErr)
    (env_cfg : EnvCfg) : List (Event V) × Option PyErr :=
  match env_cfg.asdict with
  | .error e => ([], some e)
  | .ok v =>
    let ev : Event V := .remoteConfigUpdate [("env_cfg", v)]
    ([ev], remote ev)

/-- The whole `try/except` block of `store_config` around the `env_cfg`
update.  Note that `except Exception` catches any exception raised inside
the `try` body, including one raised by `wandb.config.update` itself. -/
def envCfgStep (V : Type) (remote : Event V → Option PyErr)
    (env_cfg : EnvCfg) : List (Event V) × Option PyErr :=
  match env_cfg.to_dict with
  | .error _ => envFallbackArm V remote env_cfg
  | .ok v =>
    let ev : Event V := .remoteConfigUpdate [("env_cfg", v)]
    match remote ev with
    | none => ([ev], none)
    | some _ =>
      let r := envFallbackArm V remote env_cfg
      (ev :: r.1, r.2)

/-- `store_config(env_cfg, train_cfg)`: four `wandb.config.update` calls, in
order `runner_cfg`, `policy_cfg`, `alg_cfg`, `env_cfg`; the first three are
unguarded (a missing `policy`/`algorithm` key raises `KeyError`, a remote
failure propagates), the last one is the `try/except` block. -/
def store_config (V : Type) (remote : Event V → Option PyErr)
    (w : WandbSummaryWriter) (env_cfg : EnvCfg)
    (train_cfg : List (String × CVal)) :
    WandbSummaryWriter × List (Event V) × Option PyErr :=
  let e1 : Event V := .remoteConfigUpdate [("runner_cfg", CVal.dict train_cfg)]
  match remote e1 with
  | some err => (w, [e1], some err)
  | none =>
    match List.lookup "policy" train_cfg with
    | none => (w, [e1], some (PyErr.keyError "policy"))
    | some pv =>
      let e2 : Event V := .remoteConfigUpdate [("policy_cfg", pv)]
      match remote e2 with
      | some err => (w, [e1, e2], some err)
      | none =>
        match List.lookup "algorithm" train_cfg with
        | none => (w, [e1, e2], some (PyErr.keyError "algorithm"))
        | some av =>
          let e3 : Event V := .remoteConfigUpdate [("alg_cfg", av)]
          match remote e3 with
          | some err => (w, [e1, e2, e3], some err)
          | none =>
            let r := envCfgStep V remote env_cfg
            (w, e1 :: e2 :: e3 :: r.1, r.2)

/-- `add_scalar(tag, scalar_value, global_step, walltime, new_style)`:
one call to the base writer, then one `wandb.log({tag: value}, step)`. -/
def add_scalar (V : Type) (remote : Event V → Option PyErr)
    (w : WandbSummaryWriter) (tag : String) (scalar_value : V)
    (global_step : Option Int) (walltime : Option V) (new_style : Bool) :
    WandbSummaryWriter × List (Event V) × Option PyErr :=
  let e1 : Event V := .localAddScalar tag scalar_value global_step walltime new_style
  let e2 : Event V := .remoteLog [(tag, scalar_value)] global_step
  (w, [e1, e2], remote e2)

/-- The `stop()` method: `wandb.finish()`. -/
def stop (V : Type) (remote : Event V → Option PyErr)
    (w : WandbSummaryWriter) :
    WandbSummaryWriter × List (Event V) × Option PyErr :=
  (w, [Event.remoteFinish], remote Event.remoteFinish)

/-- `save_model(model_path, it)`: `wandb.save(model_path,
base_path=os.path.dirname(model_path))`; `it` is unused. -/
def save_model (V : Type) (remote : Event V → Option PyErr)
    (w : WandbSummaryWriter) (model_path : String) (it : Int) :
    WandbSummaryWriter × List (Event V) × Option PyErr :=
  let e : Event V := .remoteSave model_path (dirname model_path)
  (w, [e], remote e)

/-- `save_file(path)`: `wandb.save(path, base_path=os.path.dirname(path))`. -/
def save_file (V : Type) (remote : Event V → Option PyErr)
    (w : WandbSummaryWriter) (path : String) :
    WandbSummaryWriter × List (Event V) × Option PyErr :=
  let e : Event V := .remoteSave path (dirname path)
  (w, [e], remote e)

/-- The inner `for video_file in files` loop of `add_video_files`: a file is
appended to `video_files` and logged when it ends in `.mp4` and is not
already registered; the name is appended before the `wandb.log` call, so it
stays registered even when the upload raises. -/
def uploadFiles (V : Type) (remote : Event V → Option PyErr) (root : String)
    (files : List String) (vf : List String) (fps : Nat) (step : Int) :
    List String × List (Event V) × Option PyErr :=
  match files with
  | [] => (vf, [], none)
  | f :: rest =>
    match pyEndsWith f ".mp4" && !(vf.contains f) with
    | true =>
      let ev : Event V := .remoteLogVideo "Video" (joinPath root f) fps "mp4" step
      match remote ev with
      | some err => (vf ++ [f], [ev], some err)
      | none =>
        let r := uploadFiles V remote root rest (vf ++ [f]) fps step
        (r.1, ev :: r.2.1, r.2.2)
    | false => uploadFiles V remote root rest vf fps step

/-- The outer `for root, dirs, files in os.walk(log_dir)` loop. -/
def walkUpload (V : Type) (remote : Event V → Option PyErr)
    (entries : List (String × List String × List String)) (vf : List String)
    (fps : Nat) (step : Int) :
    List String × List (Event V) × Option PyErr :=
  match entries with
  | [] => (vf, [], none)
  | (root, _dirs, files) :: rest =>
    let r1 := uploadFiles V remote root files vf fps step
    match r1.2.2 with
    | some err => (r1.1, r1.2.1, some err)
    | none =>
      let r2 := walkUpload V remote rest r1.1 fps step
      (r2.1, r1.2.1 ++ r2.2.1, r2.2.2)

/-- `add_video_files(log_dir, step, fps)`: if `log_dir` exists, walk it and
upload every not-yet-registered `.mp4` file; otherwise do nothing. -/
def add_video_files (V : Type) (remote : Event V → Option PyErr) (fs : FS)
    (w : WandbSummaryWriter) (log_dir : String) (step : Int) (fps : Nat) :
    WandbSummaryWriter × List (Event V) × Option PyErr :=
  match fs.path_exists log_dir with
  | true =>
    let r := walkUpload V remote (fs.walk log_dir) w.video_files fps step
    ({ w with video_files := r.1 }, r.2.1, r.2.2)
  | false => (w, [], none)

/-- Whether an event is a call into the remote client. -/
def Event.isRemote {V : Type} : Event V → Bool
  | .localInit _ _ => false
  | .localAddScalar _ _ _ _ _ => false
  | _ => true

/-- Whether `f` is discovered as a video by a scan over `d`: `d` exists and
some walk entry lists a file named `f` ending in `.mp4`. -/
def discoveredMp4 (fs : FS) (d : String) (f : String) : Bool :=
  fs.path_exists d &&
    (fs.walk d).any (fun e => e.2.2.any (fun g => g == f && pyEndsWith g ".mp4"))

/-- Whether the preferred arm of the `env_cfg` try block succeeds:
`to_dict()` returns a value and the update on that value does not raise. -/
def arm1Ok (V : Type) (remote : Event V → Option PyErr) (ec : EnvCfg) : Bool :=
  match ec.to_dict with
  | .ok v => (remote (Event.remoteConfigUpdate [("env_cfg", v)])).isNone
  | .error _ => false

/-- Whether the fallback arm succeeds: `asdict` returns a value and the
update on that value does not raise. -/
def arm2Ok (V : Type) (remote : Event V → Option PyErr) (ec : EnvCfg) : Bool :=
  match ec.asdict with
  | .ok v => (remote (Event.remoteConfigUpdate [("env_cfg", v)])).isNone
  | .error _ => false

/-- A remote client that never raises. -/
def remoteOk (V : Type) : Event V → Option PyErr := fun _ => none

/-- A concrete writer instance for concrete evaluations. -/
def wEx : WandbSummaryWriter := { log_dir := "logs/run1", video_files := [] }

/-- A concrete `train_cfg` with `policy` and `algorithm` sub-structures. -/
def trainEx : List (String × CVal) :=
  [("policy", CVal.str "mlp"), ("algorithm", CVal.str "ppo")]

/-- A concrete `env_cfg` whose `to_dict()` succeeds. -/
def envEx : EnvCfg :=
  { to_dict := .ok (CVal.dict [("seed", CVal.num 42)])
    asdict := .ok (CVal.dict [("seed", CVal.num 42)]) }

/-- A concrete `env_cfg` modelling a plain structured record: it has no
`to_dict` method (`AttributeError`), but the structural conversion
succeeds. -/
def envPlain : EnvCfg :=
  { to_dict := .error (PyErr.attributeError "to_dict")
    asdict := .ok (CVal.dict [("seed", CVal.num 7)]) }

/-- A concrete filesystem with two directories sharing the video name
`a.mp4`. -/
def fsEx : FS :=
  { path_exists := fun p => p == "logs" || p == "logs2"
    walk := fun p =>
      if p == "logs" then [("logs", [], ["a.mp4", "note.txt", "b.mp4"])]
      else if p == "logs2" then [("logs2", [], ["a.mp4", "c.mp4"])]
      else [] }

/-! Helper lemmas about the inner file loop of `add_video_files`. -/

theorem uploadFiles_mono (V : Type) (remote : Event V → Option PyErr)
    (root : String) (fps : Nat) (step : Int) :
    ∀ (files vf : List String),
      ∃ t, (uploadFiles V remote root files vf fps step).1 = vf ++ t := by
  intro files
  induction files with
  | nil => intro vf; exact ⟨[], by simp only [uploadFiles, List.append_nil]⟩
  | cons f rest ih =>
    intro vf
    cases hb : (pyEndsWith f ".mp4" && !(vf.contains f)) with
    | true =>
      cases h : remote (Event.remoteLogVideo "Video" (joinPath root f) fps "mp4" step) with
      | none =>
        rcases ih (vf ++ [f]) with ⟨t, ht⟩
        refine ⟨f :: t, ?_⟩
        simp only [uploadFiles, hb, h, ht, List.append_assoc, List.singleton_append]
      | some err =>
        exact ⟨[f], by simp only [uploadFiles, hb, h]⟩
    | false =>
      rcases ih vf with ⟨t, ht⟩
      exact ⟨t, by simp only [uploadFiles, hb, ht]⟩

theorem uploadFiles_length (V : Type) (remote : Event V → Option PyErr)
    (root : String) (fps : Nat) (step : Int) :
    ∀ (files vf : List String),
      (uploadFiles V remote root files vf fps step).1.length
        = vf.length + (uploadFiles V remote root files vf fps step).2.1.length := by
  intro files
  induction files with
  | nil => intro vf; simp only [uploadFiles, List.length_nil, Nat.add_zero]
  | cons f rest ih =>
    intro vf
    cases hb : (pyEndsWith f ".mp4" && !(vf.contains f)) with
    | true =>
      cases h : remote (Event.remoteLogVideo "Video" (joinPath root f) fps "mp4" step) with
      | none =>
        have hih := ih (vf ++ [f])
        simp only [uploadFiles, hb, h]
        simp only [List.length_append, List.length_singleton] at hih
        simp only [List.length_cons]
        omega
      | some err =>
        simp only [uploadFiles, hb, h, List.length_append, List.length_singleton,
          List.length_cons, List.length_nil]
    | false =>
      simpa only [uploadFiles, hb] using ih vf

theorem uploadFiles_nodup (V : Type) (remote : Event V → Option PyErr)
    (root : String) (fps : Nat) (step : Int) :
    ∀ (files vf : List String), vf.Nodup →
      (uploadFiles V remote root files vf fps step).1.Nodup := by
  intro files
  induction files with
  | nil => intro vf h; simpa only [uploadFiles] using h
  | cons f rest ih =>
    intro vf hvf
    cases hb : (pyEndsWith f ".mp4" && !(vf.contains f)) with
    | true =>
      have hb' := hb
      simp only [Bool.and_eq_true, Bool.not_eq_true', List.elem_eq_mem,
        decide_eq_false_iff_not] at hb'
      have hvf' : (vf ++ [f]).Nodup := by
        simp [List.nodup_append, hvf, hb'.2]
      cases h : remote (Event.remoteLogVideo "Video" (joinPath root f) fps "mp4" step) with
      | none => simpa only [uploadFiles, hb, h] using ih (vf ++ [f]) hvf'
      | some err => simpa only [uploadFiles, hb, h] using hvf'
    | false =>
      simpa only [uploadFiles, hb] using ih vf hvf

theorem uploadFiles_count (V : Type) (remote : Event V → Option PyErr)
    (root : String) (fps : Nat) (step : Int) (g : String) :
    ∀ (files vf : List String), g ∈ vf →
      (uploadFiles V remote root files vf fps step).1.count g = vf.count g := by
  intro files
  induction files with
  | nil => intro vf _; simp only [uploadFiles]
  | cons f rest ih =>
    intro vf hg
    cases hb : (pyEndsWith f ".mp4" && !(vf.contains f)) with
    | true =>
      have hb' := hb
      simp only [Bool.and_eq_true, Bool.not_eq_true', List.elem_eq_mem,
        decide_eq_false_iff_not] at hb'
      have hne : f ≠ g := fun he => hb'.2 (he ▸ hg)
      have hcnt : (vf ++ [f]).count g = vf.count g := by
        simp [List.count_append, List.count_singleton', hne]
      cases h : remote (Event.remoteLogVideo "Video" (joinPath root f) fps "mp4" step) with
      | none =>
        have := ih (vf ++ [f]) (by simp [hg])
        simp only [uploadFiles, hb, h]
        rw [this, hcnt]
      | some err =>
        simp only [uploadFiles, hb, h]
        exact hcnt
    | false =>
      simpa only [uploadFiles, hb] using ih vf hg

theorem uploadFiles_ok (V : Type) (remote : Event V → Option PyErr)
    (root : String) (fps : Nat) (step : Int)
    (hok : ∀ e, remote e = none) :
    ∀ (files vf : List String),
      (uploadFiles V remote root files vf fps step).2.2 = none := by
  intro files
  induction files with
  | nil => intro vf; simp only [uploadFiles]
  | cons f rest ih =>
    intro vf
    cases hb : (pyEndsWith f ".mp4" && !(vf.contains f)) with
    | true => simpa only [uploadFiles, hb, hok] using ih (vf ++ [f])
    | false => simpa only [uploadFiles, hb] using ih vf

theorem uploadFiles_mem (V : Type) (remote : Event V → Option PyErr)
    (root : String) (fps : Nat) (step : Int) (g : String)
    (hok : ∀ e, remote e = none) :
    ∀ (files vf : List String),
      (g ∈ (uploadFiles V remote root files vf fps step).1
        ↔ g ∈ vf ∨ (g ∈ files ∧ pyEndsWith g ".mp4" = true)) := by
  intro files
  induction files with
  | nil => intro vf; simp only [uploadFiles, List.not_mem_nil, false_and, or_false]
  | cons f rest ih =>
    intro vf
    cases hb : (pyEndsWith f ".mp4" && !(vf.contains f)) with
    | true =>
      have hb' := hb
      simp only [Bool.and_eq_true, Bool.not_eq_true', List.elem_eq_mem,
        decide_eq_false_iff_not] at hb'
      have hih := ih (vf ++ [f])
      simp only [uploadFiles, hb, hok]
      simp only [List.mem_append, List.mem_singleton] at hih
      rw [hih]
      constructor
      · rintro ((hv | rfl) | ⟨hr, hm⟩)
        · exact Or.inl hv
        · exact Or.inr ⟨List.mem_cons_self _ _, hb'.1⟩
        · exact Or.inr ⟨List.mem_cons_of_mem _ hr, hm⟩
      · rintro (hv | ⟨hf, hm⟩)
        · exact Or.inl (Or.inl hv)
        · rcases List.mem_cons.mp hf with rfl | hr
          · exact Or.inl (Or.inr rfl)
          · exact Or.inr ⟨hr, hm⟩
    | false =>
      have hin : pyEndsWith f ".mp4" = true → f ∈ vf := by
        intro hmp4
        by_contra hnot
        simp only [hmp4, Bool.true_and, Bool.not_eq_false', List.elem_eq_mem,
          decide_eq_true_eq] at hb
        exact hnot hb
      have hih := ih vf
      simp only [uploadFiles, hb]
      rw [hih]
      constructor
      · rintro (hv | ⟨hr, hm⟩)
        · exact Or.inl hv
        · exact Or.inr ⟨List.mem_cons_of_mem _ hr, hm⟩
      · rintro (hv | ⟨hf, hm⟩)
        · exact Or.inl hv
        · rcases List.mem_cons.mp hf with rfl | hr
          · exact Or.inl (hin hm)
          · exact Or.inr ⟨hr, hm⟩

theorem uploadFiles_noop (V : Type) (remote : Event V → Option PyErr)
    (root : String) (fps : Nat) (step : Int) :
    ∀ (files vf : List String),
      (∀ f ∈ files, pyEndsWith f ".mp4" = true → f ∈ vf) →
      uploadFiles V remote root files vf fps step = (vf, [], none) := by
  intro files
  induction files with
  | nil => intro vf _; simp only [uploadFiles]
  | cons f rest ih =>
    intro vf h
    have hb : (pyEndsWith f ".mp4" && !(vf.contains f)) = false := by
      cases hm : pyEndsWith f ".mp4" with
      | false => simp
      | true =>
        have : f ∈ vf := h f (List.mem_cons_self _ _) hm
        simp [this]
    simp only [uploadFiles, hb]
    exact ih vf (fun g hg => h g (List.mem_cons_of_mem _ hg))

/-! Helper lemmas about the outer walk loop of `add_video_files`. -/

theorem walkUpload_mono (V : Type) (remote : Event V → Option PyErr)
    (fps : Nat) (step : Int) :
    ∀ (entries : List (String × List String × List String)) (vf : List String),
      ∃ t, (walkUpload V remote entries vf fps step).1 = vf ++ t := by
  intro entries
  induction entries with
  | nil => intro vf; exact ⟨[], by simp only [walkUpload, List.append_nil]⟩
  | cons entry rest ih =>
    intro vf
    rcases entry with ⟨root, dirs, files⟩
    rcases uploadFiles_mono V remote root fps step files vf with ⟨t1, ht1⟩
    cases h : (uploadFiles V remote root files vf fps step).2.2 with
    | some err => exact ⟨t1, by simp only [walkUpload, h, ht1]⟩
    | none =>
      rcases ih (uploadFiles V remote root files vf fps step).1 with ⟨t2, ht2⟩
      refine ⟨t1 ++ t2, ?_⟩
      rw [ht1] at ht2
      simp only [walkUpload, h, ht1]
      rw [ht2, List.append_assoc]

theorem walkUpload_length (V : Type) (remote : Event V → Option PyErr)
    (fps : Nat) (step : Int) :
    ∀ (entries : List (String × List String × List String)) (vf : List String),
      (walkUpload V remote entries vf fps step).1.length
        = vf.length + (walkUpload V remote entries vf fps step).2.1.length := by
  intro entries
  induction entries with
  | nil => intro vf; simp only [walkUpload, List.length_nil, Nat.add_zero]
  | cons entry rest ih =>
    intro vf
    rcases entry with ⟨root, dirs, files⟩
    have h1 := uploadFiles_length V remote root fps step files vf
    cases h : (uploadFiles V remote root files vf fps step).2.2 with
    | some err => simpa only [walkUpload, h] using h1
    | none =>
      have h2 := ih (uploadFiles V remote root files vf fps step).1
      simp only [walkUpload, h, List.length_append]
      omega

theorem walkUpload_nodup (V : Type) (remote : Event V → Option PyErr)
    (fps : Nat) (step : Int) :
    ∀ (entries : List (String × List String × List String)) (vf : List String),
      vf.Nodup → (walkUpload V remote entries vf fps step).1.Nodup := by
  intro entries
  induction entries with
  | nil => intro vf h; simpa only [walkUpload] using h
  | cons entry rest ih =>
    intro vf hvf
    rcases entry with ⟨root, dirs, files⟩
    have h1 := uploadFiles_nodup V remote root fps step files vf hvf
    cases h : (uploadFiles V remote root files vf fps step).2.2 with
    | some err => simpa only [walkUpload, h] using h1
    | none => simpa only [walkUpload, h] using ih _ h1

theorem walkUpload_count (V : Type) (remote : Event V → Option PyErr)
    (fps : Nat) (step : Int) (g : String) :
    ∀ (entries : List (String × List String × List String)) (vf : List String),
      g ∈ vf → (walkUpload V remote entries vf fps step).1.count g = vf.count g := by
  intro entries
  induction entries with
  | nil => intro vf _; simp only [walkUpload]
  | cons entry rest ih =>
    intro vf hg
    rcases entry with ⟨root, dirs, files⟩
    have h1 := uploadFiles_count V remote root fps step g files vf hg
    have hg1 : g ∈ (uploadFiles V remote root files vf fps step).1 := by
      rcases uploadFiles_mono V remote root fps step files vf with ⟨t, ht⟩
      rw [ht]; exact List.mem_append_left _ hg
    cases h : (uploadFiles V remote root files vf fps step).2.2 with
    | some err => simpa only [walkUpload, h] using h1
    | none =>
      have h2 := ih _ hg1
      simp only [walkUpload, h]
      rw [h2, h1]

theorem walkUpload_ok (V : Type) (remote : Event V → Option PyErr)
    (fps : Nat) (step : Int) (hok : ∀ e, remote e = none) :
    ∀ (entries : List (String × List String × List String)) (vf : List String),
      (walkUpload V remote entries vf fps step).2.2 = none := by
  intro entries
  induction entries with
  | nil => intro vf; simp only [walkUpload]
  | cons entry rest ih =>
    intro vf
    rcases entry with ⟨root, dirs, files⟩
    have h1 := uploadFiles_ok V remote root fps step hok files vf
    simp only [walkUpload, h1]
    exact ih _

theorem walkUpload_mem (V : Type) (remote : Event V → Option PyErr)
    (fps : Nat) (step : Int) (g : String) (hok : ∀ e, remote e = none) :
    ∀ (entries : List (String × List String × List String)) (vf : List String),
      (g ∈ (walkUpload V remote entries vf fps step).1
        ↔ g ∈ vf ∨ ∃ entry ∈ entries, g ∈ entry.2.2 ∧ pyEndsWith g ".mp4" = true) := by
  intro entries
  induction entries with
  | nil =>
    intro vf
    simp [walkUpload]
  | cons entry rest ih =>
    intro vf
    rcases entry with ⟨root, dirs, files⟩
    have h1 := uploadFiles_ok V remote root fps step hok files vf
    have hm1 := uploadFiles_mem V remote root fps step g hok files vf
    have hih := ih (uploadFiles V remote root files vf fps step).1
    simp only [walkUpload, h1]
    rw [hih, hm1]
    constructor
    · rintro ((hv | ⟨hfl, hm⟩) | ⟨e, he, hge, hm⟩)
      · exact Or.inl hv
      · exact Or.inr ⟨(root, dirs, files), List.mem_cons_self _ _, hfl, hm⟩
      · exact Or.inr ⟨e, List.mem_cons_of_mem _ he, hge, hm⟩
    · rintro (hv | ⟨e, he, hge, hm⟩)
      · exact Or.inl (Or.inl hv)
      · rcases List.mem_cons.mp he with rfl | hr
        · exact Or.inl (Or.inr ⟨hge, hm⟩)
        · exact Or.inr ⟨e, hr, hge, hm⟩

theorem walkUpload_noop (V : Type) (remote : Event V → Option PyErr)
    (fps : Nat) (step : Int) :
    ∀ (entries : List (String × List String × List String)) (vf : List String),
      (∀ entry ∈ entries, ∀ f ∈ entry.2.2, pyEndsWith f ".mp4" = true → f ∈ vf) →
      walkUpload V remote entries vf fps step = (vf, [], none) := by
  intro entries
  induction entries with
  | nil => intro vf _; simp only [walkUpload]
  | cons entry rest ih =>
    intro vf h
    rcases entry with ⟨root, dirs, files⟩
    have h1 : uploadFiles V remote root files vf fps step = (vf, [], none) :=
      uploadFiles_noop V remote root fps step files vf
        (fun f hf => h (root, dirs, files) (List.mem_cons_self _ _) f hf)
    have h2 : walkUpload V remote rest vf fps step = (vf, [], none) :=
      ih vf (fun e he f hf => h e (List.mem_cons_of_mem _ he) f hf)
    simp [walkUpload, h1, h2]

/-- C1: for every config mapping without the key `wandb_project`, the
constructor raises a `KeyError` whose message names `wandb_project`, and the
only attempted call is the local base-constructor call, so the remote
session-open call is never reached. -/
theorem c1_missing_project (V : Type) (remote : Event V → Option PyErr)
    (log_dir : String) (flush_secs : Nat) (cfg : List (String × String))
    (h : List.lookup "wandb_project" cfg = none) :
    construct V remote log_dir flush_secs cfg
        = ([Event.localInit log_dir flush_secs],
            .error (PyErr.keyError projectErrMsg)) ∧
      (∃ pre post, projectErrMsg = pre ++ "wandb_project" ++ post) ∧
      (∀ e ∈ (construct V remote log_dir flush_secs cfg).1,
        e.isRemote = false) := by
  refine ⟨?_,
    ⟨"Please specify ", " in the runner config, e.g. legged_gym.", by decide⟩, ?_⟩
  · simp only [construct, h]
  · intro e he
    simp only [construct, h, List.mem_singleton] at he
    subst he
    rfl

/-- Witness for C1 at a concrete config lacking `wandb_project`. -/
theorem c1_missing_project_witness :
    List.lookup "wandb_project" ([("wandb_entity", "me")] : List (String × String))
        = none ∧
      construct Unit (remoteOk Unit) "logs/run1" 10 [("wandb_entity", "me")]
        = ([Event.localInit "logs/run1" 10],
            .error (PyErr.keyError projectErrMsg)) :=
  ⟨by decide,
    (c1_missing_project Unit (remoteOk Unit) "logs/run1" 10
      [("wandb_entity", "me")] (by decide)).1⟩

/-- C4: every call to `add_scalar` attempts exactly one local write carrying
`(tag, value, step, walltime, new_style)` followed by exactly one remote log
call with payload `[(tag, value)]` at the same step, in that order, and its
outcome is exactly the remote client's outcome on that log call. -/
theorem c4_add_scalar_events (V : Type) (remote : Event V → Option PyErr)
    (w : WandbSummaryWriter) (tag : String) (v : V) (step : Option Int)
    (walltime : Option V) (new_style : Bool) :
    add_scalar V remote w tag v step walltime new_style
        = (w, [Event.localAddScalar tag v step walltime new_style,
               Event.remoteLog [(tag, v)] step],
            remote (Event.remoteLog [(tag, v)] step)) ∧
      (add_scalar V remote w tag v step walltime new_style).2.1.countP
          (fun e => e.isRemote) = 1 ∧
      (add_scalar V remote w tag v step walltime new_style).2.1.countP
          (fun e => !e.isRemote) = 1 :=
  ⟨rfl, rfl, rfl⟩

/-- C6: scanning a directory that does not exist is a no-op: no error, no
attempted calls, and the writer (hence the video registry) is unchanged. -/
theorem c6_missing_dir_noop (V : Type) (remote : Event V → Option PyErr)
    (fs : FS) (w : WandbSummaryWriter) (log_dir : String) (step : Int)
    (fps : Nat) (h : fs.path_exists log_dir = false) :
    add_video_files V remote fs w log_dir step fps = (w, [], none) := by
  simp only [add_video_files, h]

/-- Witness for C6 at a concrete missing directory. -/
theorem c6_missing_dir_noop_witness :
    fsEx.path_exists "nope" = false ∧
      add_video_files Unit (remoteOk Unit) fsEx wEx "nope" 3 30
        = (wEx, [], none) :=
  ⟨rfl, c6_missing_dir_noop Unit (remoteOk Unit) fsEx wEx "nope" 3 30 rfl⟩

/-- C8: when the config has `wandb_project` but no `wandb_entity`, the
remote session-open call is requested with entity `none`. -/
theorem c8_entity_defaults_none (V : Type) (remote : Event V → Option PyErr)
    (log_dir : String) (flush_secs : Nat) (cfg : List (String × String))
    (project : String)
    (hp : List.lookup "wandb_project" cfg = some project)
    (he : List.lookup "wandb_entity" cfg = none) :
    (construct V remote log_dir flush_secs cfg).1[1]?
      = some (Event.remoteInit project none (runNameOf log_dir)) := by
  simp only [construct, hp, he]
  cases remote (Event.remoteInit project none (runNameOf log_dir)) with
  | none =>
    cases remote (Event.remoteConfigUpdate [("log_dir", CVal.str log_dir)]) with
    | none => rfl
    | some err => rfl
  | some err => rfl

/-- Witness for C8 at a concrete config with a project and no entity. -/
theorem c8_entity_defaults_none_witness :
    List.lookup "wandb_project" ([("wandb_project", "legged_gym")] : List (String × String))
        = some "legged_gym" ∧
      List.lookup "wandb_entity" ([("wandb_project", "legged_gym")] : List (String × String))
        = none ∧
      (construct Unit (remoteOk Unit) "logs/run1" 10 [("wandb_project", "legged_gym")]).1[1]?
        = some (Event.remoteInit "legged_gym" none "run1") :=
  ⟨by decide, by decide,
    c8_entity_defaults_none Unit (remoteOk Unit) "logs/run1" 10
      [("wandb_project", "legged_gym")] "legged_gym" (by decide) (by decide)⟩

/-- C10: `save_model` ignores its iteration argument and behaves exactly as
`save_file`: one remote upload of the path rooted at the path's parent
directory. -/
theorem c10_save_model_eq_save_file (V : Type) (remote : Event V → Option PyErr)
    (w : WandbSummaryWriter) (path : String) (i j : Int) :
    save_model V remote w path i = save_file V remote w path ∧
      save_model V remote w path j = save_model V remote w path i ∧
      save_file V remote w path
        = (w, [Event.remoteSave path (dirname path)],
            remote (Event.remoteSave path (dirname path))) :=
  ⟨rfl, rfl, rfl⟩

/-- C3: the writer first attempts the `to_dict` conversion (when it yields a
value, the first attempted call pushes that value as `env_cfg`); when
`to_dict` is absent or raises, the whole block behaves as the fallback arm,
which pushes the structural conversion's value as `env_cfg`; and the block
raises if and only if neither arm succeeds. -/
theorem c3_env_cfg_fallback (V : Type) (remote : Event V → Option PyErr)
    (ec : EnvCfg) :
    ((envCfgStep V remote ec).2 = none
        ↔ (arm1Ok V remote ec = true ∨ arm2Ok V remote ec = true)) ∧
      (∀ v, EnvCfg.to_dict ec = .ok v →
        (envCfgStep V remote ec).1.head?
          = some (Event.remoteConfigUpdate [("env_cfg", v)])) ∧
      (∀ e, EnvCfg.to_dict ec = .error e →
        envCfgStep V remote ec = envFallbackArm V remote ec) ∧
      (∀ v, EnvCfg.asdict ec = .ok v →
        envFallbackArm V remote ec
          = ([Event.remoteConfigUpdate [("env_cfg", v)]],
              remote (Event.remoteConfigUpdate [("env_cfg", v)]))) := by
  rcases ec with ⟨td, ad⟩
  refine ⟨?_, ?_, ?_, ?_⟩
  · cases td with
    | error e0 =>
      cases ad with
      | error e1 =>
        simp [envCfgStep, envFallbackArm, arm1Ok, arm2Ok]
      | ok v =>
        cases hr : remote (Event.remoteConfigUpdate [("env_cfg", v)]) with
        | none => simp [envCfgStep, envFallbackArm, arm1Ok, arm2Ok, hr]
        | some e2 => simp [envCfgStep, envFallbackArm, arm1Ok, arm2Ok, hr]
    | ok v =>
      cases hr : remote (Event.remoteConfigUpdate [("env_cfg", v)]) with
      | none => simp [envCfgStep, arm1Ok, hr]
      | some e2 =>
        cases ad with
        | error e1 =>
          simp [envCfgStep, envFallbackArm, arm1Ok, arm2Ok, hr]
        | ok v2 =>
          cases hr2 : remote (Event.remoteConfigUpdate [("env_cfg", v2)]) with
          | none => simp [envCfgStep, envFallbackArm, arm1Ok, arm2Ok, hr, hr2]
          | some e3 => simp [envCfgStep, envFallbackArm, arm1Ok, arm2Ok, hr, hr2]
  · intro v hd
    cases hd
    cases hr : remote (Event.remoteConfigUpdate [("env_cfg", v)]) with
    | none => simp [envCfgStep, hr]
    | some e2 => simp [envCfgStep, hr]
  · intro e hd
    cases hd
    simp [envCfgStep]
  · intro v ha
    cases ha
    simp [envFallbackArm]

/-- Witness for C3: with a succeeding client and an `env_cfg` whose
`to_dict` yields a value, the block succeeds and its first attempted call
pushes that value. -/
theorem c3_env_cfg_fallback_witness :
    (envCfgStep Unit (remoteOk Unit) envEx).2 = none ∧
      (envCfgStep Unit (remoteOk Unit) envEx).1.head?
        = some (Event.remoteConfigUpdate
            [("env_cfg", CVal.dict [("seed", CVal.num 42)])]) := by
  have h := c3_env_cfg_fallback Unit (remoteOk Unit) envEx
  exact ⟨h.1.mpr (Or.inl rfl), h.2.1 _ rfl⟩

/-- C7: when `train_cfg` has `policy` and `algorithm` sub-structures, the
remote client raises nothing, and `env_cfg` converts — through either of its
two representations: `to_dict` succeeds, or `to_dict` is absent or raises
and the structural `asdict` conversion succeeds — `store_config` pushes
exactly the four single-key fragments `runner_cfg`, `policy_cfg`, `alg_cfg`,
`env_cfg`, each carrying the corresponding input sub-structure, and nothing
else. -/
theorem c7_store_config_exact (V : Type) (remote : Event V → Option PyErr)
    (w : WandbSummaryWriter) (ec : EnvCfg) (tc : List (String × CVal))
    (pv av ev : CVal)
    (hok : ∀ e, remote e = none)
    (hp : List.lookup "policy" tc = some pv)
    (ha : List.lookup "algorithm" tc = some av)
    (hconv : EnvCfg.to_dict ec = .ok ev
      ∨ ((∃ e, EnvCfg.to_dict ec = .error e) ∧ EnvCfg.asdict ec = .ok ev)) :
    store_config V remote w ec tc
      = (w, [Event.remoteConfigUpdate [("runner_cfg", CVal.dict tc)],
             Event.remoteConfigUpdate [("policy_cfg", pv)],
             Event.remoteConfigUpdate [("alg_cfg", av)],
             Event.remoteConfigUpdate [("env_cfg", ev)]], none) := by
  rcases hconv with hd | ⟨⟨e0, hd⟩, ha2⟩
  · simp only [store_config, hok, hp, ha, envCfgStep, hd]
  · simp only [store_config, hok, hp, ha, envCfgStep, hd, envFallbackArm, ha2]

/-- Witness for C7 at concrete configs and a succeeding client, exercising
both `env_cfg` representations: one with a working `to_dict`, one plain
record converted through the `asdict` fallback. -/
theorem c7_store_config_exact_witness :
    store_config Unit (remoteOk Unit) wEx envEx trainEx
        = (wEx,
           [Event.remoteConfigUpdate [("runner_cfg", CVal.dict trainEx)],
            Event.remoteConfigUpdate [("policy_cfg", CVal.str "mlp")],
            Event.remoteConfigUpdate [("alg_cfg", CVal.str "ppo")],
            Event.remoteConfigUpdate
              [("env_cfg", CVal.dict [("seed", CVal.num 42)])]], none) ∧
      store_config Unit (remoteOk Unit) wEx envPlain trainEx
        = (wEx,
           [Event.remoteConfigUpdate [("runner_cfg", CVal.dict trainEx)],
            Event.remoteConfigUpdate [("policy_cfg", CVal.str "mlp")],
            Event.remoteConfigUpdate [("alg_cfg", CVal.str "ppo")],
            Event.remoteConfigUpdate
              [("env_cfg", CVal.dict [("seed", CVal.num 7)])]], none) :=
  ⟨c7_store_config_exact Unit (remoteOk Unit) wEx envEx trainEx
      (CVal.str "mlp") (CVal.str "ppo") (CVal.dict [("seed", CVal.num 42)])
      (fun e => rfl) rfl rfl (Or.inl rfl),
    c7_store_config_exact Unit (remoteOk Unit) wEx envPlain trainEx
      (CVal.str "mlp") (CVal.str "ppo") (CVal.dict [("seed", CVal.num 7)])
      (fun e => rfl) rfl rfl
      (Or.inr ⟨⟨PyErr.attributeError "to_dict", rfl⟩, rfl⟩)⟩

/-- Characterization of `discoveredMp4` on an existing directory. -/
theorem discoveredMp4_iff (fs : FS) (d g : String)
    (hex : fs.path_exists d = true) :
    discoveredMp4 fs d g = true
      ↔ ∃ entry ∈ fs.walk d, g ∈ entry.2.2 ∧ pyEndsWith g ".mp4" = true := by
  unfold discoveredMp4
  rw [hex, Bool.true_and, List.any_eq_true]
  constructor
  · rintro ⟨e, he, hp⟩
    rcases List.any_eq_true.mp hp with ⟨x, hx, hxp⟩
    have hxp' : x = g ∧ pyEndsWith x ".mp4" = true := by simpa using hxp
    rcases hxp' with ⟨rfl, hend⟩
    exact ⟨e, he, hx, hend⟩
  · rintro ⟨e, he, hg, hm⟩
    exact ⟨e, he, List.any_eq_true.mpr ⟨g, hg, by simp [hm]⟩⟩

/-- Membership in the registry after a scan: a name is registered afterwards
iff it was registered before or it is a discovered `.mp4` name. -/
theorem add_video_files_mem (V : Type) (remote : Event V → Option PyErr)
    (fs : FS) (w : WandbSummaryWriter) (d : String) (step : Int) (fps : Nat)
    (hok : ∀ e, remote e = none) (g : String) :
    g ∈ (add_video_files V remote fs w d step fps).1.video_files
      ↔ g ∈ w.video_files ∨ discoveredMp4 fs d g = true := by
  cases hex : fs.path_exists d with
  | false =>
    simp only [add_video_files, hex]
    unfold discoveredMp4
    rw [hex]
    simp
  | true =>
    simp only [add_video_files, hex]
    show g ∈ (walkUpload V remote (fs.walk d) w.video_files fps step).1
      ↔ g ∈ w.video_files ∨ discoveredMp4 fs d g = true
    rw [walkUpload_mem V remote fps step g hok (fs.walk d) w.video_files,
      discoveredMp4_iff fs d g hex]

/-- A scan that can discover nothing new changes nothing and attempts no
call. -/
theorem add_video_files_noop (V : Type) (remote : Event V → Option PyErr)
    (fs : FS) (w : WandbSummaryWriter) (d : String) (step : Int) (fps : Nat)
    (h : ∀ g, discoveredMp4 fs d g = true → g ∈ w.video_files) :
    add_video_files V remote fs w d step fps = (w, [], none) := by
  cases hex : fs.path_exists d with
  | false => simp only [add_video_files, hex]
  | true =>
    have hnoop : walkUpload V remote (fs.walk d) w.video_files fps step
        = (w.video_files, [], none) :=
      walkUpload_noop V remote fps step (fs.walk d) w.video_files
        (fun e he f hf hm =>
          h f ((discoveredMp4_iff fs d f hex).mpr ⟨e, he, hf, hm⟩))
    simp [add_video_files, hex, hnoop]

/-- A name already registered is never re-appended by a scan: its
multiplicity in the registry is unchanged. -/
theorem add_video_files_count (V : Type) (remote : Event V → Option PyErr)
    (fs : FS) (w : WandbSummaryWriter) (d : String) (step : Int) (fps : Nat)
    (g : String) (hg : g ∈ w.video_files) :
    (add_video_files V remote fs w d step fps).1.video_files.count g
      = w.video_files.count g := by
  cases hex : fs.path_exists d with
  | false => simp only [add_video_files, hex]
  | true =>
    simp only [add_video_files, hex]
    show (walkUpload V remote (fs.walk d) w.video_files fps step).1.count g
      = w.video_files.count g
    exact walkUpload_count V remote fps step g (fs.walk d) w.video_files hg

/-- The registry only ever grows under a scan. -/
theorem add_video_files_mono (V : Type) (remote : Event V → Option PyErr)
    (fs : FS) (w : WandbSummaryWriter) (d : String) (step : Int) (fps : Nat) :
    ∃ t, (add_video_files V remote fs w d step fps).1.video_files
      = w.video_files ++ t := by
  cases hex : fs.path_exists d with
  | false => exact ⟨[], by simp only [add_video_files, hex, List.append_nil]⟩
  | true =>
    rcases walkUpload_mono V remote fps step (fs.walk d) w.video_files with ⟨t, ht⟩
    refine ⟨t, ?_⟩
    simp only [add_video_files, hex]
    exact ht

/-- A duplicate-free registry stays duplicate-free under a scan. -/
theorem add_video_files_nodup (V : Type) (remote : Event V → Option PyErr)
    (fs : FS) (w : WandbSummaryWriter) (d : String) (step : Int) (fps : Nat)
    (h : w.video_files.Nodup) :
    (add_video_files V remote fs w d step fps).1.video_files.Nodup := by
  cases hex : fs.path_exists d with
  | false => simpa only [add_video_files, hex] using h
  | true =>
    simp only [add_video_files, hex]
    exact walkUpload_nodup V remote fps step (fs.walk d) w.video_files h

/-- Each attempted upload extends the registry by exactly one name. -/
theorem add_video_files_length (V : Type) (remote : Event V → Option PyErr)
    (fs : FS) (w : WandbSummaryWriter) (d : String) (step : Int) (fps : Nat) :
    (add_video_files V remote fs w d step fps).1.video_files.length
      = w.video_files.length
        + (add_video_files V remote fs w d step fps).2.1.length := by
  cases hex : fs.path_exists d with
  | false => simp only [add_video_files, hex, List.length_nil, Nat.add_zero]
  | true =>
    simp only [add_video_files, hex]
    exact walkUpload_length V remote fps step (fs.walk d) w.video_files

/-- C5: uploads are deduplicated by filename alone: after a scan of `d` a
name is registered iff it was registered before or is a discovered `.mp4`
filename of `d`; a second scan of the unchanged `d` is a strict no-op; and a
name registered by the first scan is never re-uploaded by a scan of any
other directory `d2` (its registry multiplicity is unchanged, so no new
registry entry, hence no upload, is made for it). -/
theorem c5_filename_dedup (V : Type) (remote : Event V → Option PyErr)
    (fs : FS) (w : WandbSummaryWriter) (d d2 : String) (step step2 : Int)
    (fps fps2 : Nat) (hok : ∀ e, remote e = none) :
    (∀ g, g ∈ (add_video_files V remote fs w d step fps).1.video_files
        ↔ g ∈ w.video_files ∨ discoveredMp4 fs d g = true) ∧
      add_video_files V remote fs (add_video_files V remote fs w d step fps).1
          d step2 fps2
        = ((add_video_files V remote fs w d step fps).1, [], none) ∧
      (∀ g, g ∈ (add_video_files V remote fs w d step fps).1.video_files →
        (add_video_files V remote fs (add_video_files V remote fs w d step fps).1
            d2 step2 fps2).1.video_files.count g
          = (add_video_files V remote fs w d step fps).1.video_files.count g) := by
  refine ⟨add_video_files_mem V remote fs w d step fps hok, ?_, ?_⟩
  · exact add_video_files_noop V remote fs _ d step2 fps2
      (fun g hg =>
        (add_video_files_mem V remote fs w d step fps hok g).mpr (Or.inr hg))
  · intro g hg
    exact add_video_files_count V remote fs _ d2 step2 fps2 g hg

/-- Witness for C5: over the concrete filesystem, rescanning `logs` uploads
nothing, and the shared name `a.mp4` keeps multiplicity one after a scan of
the second directory `logs2`. -/
theorem c5_filename_dedup_witness :
    add_video_files Unit (remoteOk Unit) fsEx
        (add_video_files Unit (remoteOk Unit) fsEx wEx "logs" 1 30).1 "logs" 2 30
      = ((add_video_files Unit (remoteOk Unit) fsEx wEx "logs" 1 30).1, [], none) ∧
      (add_video_files Unit (remoteOk Unit) fsEx
          (add_video_files Unit (remoteOk Unit) fsEx wEx "logs" 1 30).1
          "logs2" 2 30).1.video_files.count "a.mp4"
        = (add_video_files Unit (remoteOk Unit) fsEx wEx "logs" 1 30).1.video_files.count
            "a.mp4" := by
  have h := c5_filename_dedup Unit (remoteOk Unit) fsEx wEx "logs" "logs2" 1 2
    30 30 (fun e => rfl)
  exact ⟨h.2.1, h.2.2 "a.mp4" (by decide)⟩

/-- C9: the registry starts empty at construction; no operation ever removes
a name from it; every operation other than the video scan leaves the writer
state untouched; and the scan appends exactly one entry per attempted
upload, preserving freedom from duplicates. -/
theorem c9_registry_invariants (V : Type) (remote : Event V → Option PyErr)
    (fs : FS) (w : WandbSummaryWriter) :
    (∀ ld fl cfg w0, (construct V remote ld fl cfg).2 = .ok w0 →
        w0.video_files = []) ∧
      (∀ ec tc, (store_config V remote w ec tc).1 = w) ∧
      (∀ tag v st wt ns, (add_scalar V remote w tag v st wt ns).1 = w) ∧
      ((stop V remote w).1 = w) ∧
      (∀ p i, (save_model V remote w p i).1 = w) ∧
      (∀ p, (save_file V remote w p).1 = w) ∧
      (∀ d st fp, ∃ t, (add_video_files V remote fs w d st fp).1.video_files
          = w.video_files ++ t) ∧
      (∀ d st fp, w.video_files.Nodup →
        (add_video_files V remote fs w d st fp).1.video_files.Nodup) ∧
      (∀ d st fp, (add_video_files V remote fs w d st fp).1.video_files.length
          = w.video_files.length
            + (add_video_files V remote fs w d st fp).2.1.length) := by
  refine ⟨?_, ?_, ?_, rfl, fun p i => rfl, fun p => rfl, ?_, ?_, ?_⟩
  · intro ld fl cfg w0 h
    cases hl : List.lookup "wandb_project" cfg with
    | none =>
      simp only [construct, hl] at h
      exact Except.noConfusion h
    | some proj =>
      cases hr1 : remote (Event.remoteInit proj (List.lookup "wandb_entity" cfg)
          (runNameOf ld)) with
      | some err =>
        simp only [construct, hl, hr1] at h
        exact Except.noConfusion h
      | none =>
        cases hr2 : remote (Event.remoteConfigUpdate [("log_dir", CVal.str ld)]) with
        | some err =>
          simp only [construct, hl, hr1, hr2] at h
          exact Except.noConfusion h
        | none =>
          simp only [construct, hl, hr1, hr2, Except.ok.injEq] at h
          rw [← h]
  · intro ec tc
    cases hr1 : remote (Event.remoteConfigUpdate [("runner_cfg", CVal.dict tc)]) with
    | some err => simp only [store_config, hr1]
    | none =>
      cases hp : List.lookup "policy" tc with
      | none => simp only [store_config, hr1, hp]
      | some pv =>
        cases hr2 : remote (Event.remoteConfigUpdate [("policy_cfg", pv)]) with
        | some err => simp only [store_config, hr1, hp, hr2]
        | none =>
          cases ha : List.lookup "algorithm" tc with
          | none => simp only [store_config, hr1, hp, hr2, ha]
          | some av =>
            cases hr3 : remote (Event.remoteConfigUpdate [("alg_cfg", av)]) with
            | some err => simp only [store_config, hr1, hp, hr2, ha, hr3]
            | none => simp only [store_config, hr1, hp, hr2, ha, hr3]
  · intro tag v st wt ns
    rfl
  · intro d st fp
    exact add_video_files_mono V remote fs w d st fp
  · intro d st fp h
    exact add_video_files_nodup V remote fs w d st fp h
  · intro d st fp
    exact add_video_files_length V remote fs w d st fp

/-- Witness for C9: concrete construction yields an empty registry, a
concrete scan only appends, and the no-duplicates hypothesis is discharged
for the concrete writer. -/
theorem c9_registry_invariants_witness :
    (construct Unit (remoteOk Unit) "logs/run1" 10
          [("wandb_project", "legged_gym")]).2
        = .ok { log_dir := "logs/run1", video_files := [] } ∧
      WandbSummaryWriter.video_files
          { log_dir := "logs/run1", video_files := [] } = ([] : List String) ∧
      (∃ t, (add_video_files Unit (remoteOk Unit) fsEx wEx "logs" 5 30).1.video_files
        = wEx.video_files ++ t) ∧
      (add_video_files Unit (remoteOk Unit) fsEx wEx "logs" 5 30).1.video_files.Nodup ∧
      (store_config Unit (remoteOk Unit) wEx envEx trainEx).1 = wEx := by
  have h := c9_registry_invariants Unit (remoteOk Unit) fsEx wEx
  refine ⟨rfl,
    h.1 "logs/run1" 10 [("wandb_project", "legged_gym")]
      { log_dir := "logs/run1", video_files := [] } rfl,
    h.2.2.2.2.2.2.1 "logs" 5 30,
    h.2.2.2.2.2.2.2.1 "logs" 5 30 (by decide), h.2.1 envEx trainEx⟩

end WandbUtils
